import Mathlib

/-!
Shallow embedding of the collaborative-task pipeline of this repository
(`collaborationService.ts`, `teamService.ts`, and the `TaskResults` frontend page),
with theorems settling the specification claims about it.

Modelling conventions:
* JavaScript numbers are modelled as `ℚ`; `Math.exp` is abstracted as a function
  parameter `jsExp : ℚ → ℚ` (no claim depends on properties of the exponential).
* The Supabase database is an in-memory record of row lists; a checked database
  operation (`if (error) throw error`) consults an error oracle `dbErr : Nat → Bool`
  indexed by the position of the operation in the run.
* OpenAI chat-completion calls consume successive outcomes of an oracle
  `llm : Nat → LLMOutcome`; an outcome is a response or a thrown error.
* Timestamps (`new Date().toISOString()`) are a single tick parameter `now : Nat`.
* `crypto.randomUUID()` results are supplied as parameters.
-/

namespace Collab

/-- One entry of the OpenAI `logprobs.content` array. `logprob` is `none` when the
field is `null`/`undefined` (the source filters those out). -/
structure TokenInfo where
  logprob : Option ℚ
deriving Repr, DecidableEq

/-- The `logprobs` object of an OpenAI chat choice. `content` is `none` when the
field is absent (`!logprobs.content`). -/
structure Logprobs where
  content : Option (List TokenInfo)
deriving Repr, DecidableEq

/-- `Math.max` on rationals. -/
def jsMax (a b : ℚ) : ℚ := if a ≤ b then b else a

/-- `Math.min` on rationals. -/
def jsMin (a b : ℚ) : ℚ := if a ≤ b then a else b

/-- `computeConfidenceFromLogprobs` from `collaborationService.ts`: geometric mean of
the token probabilities (computed as `exp` of the mean log-probability), scaled to
0–100 and clamped. `Math.exp` is abstracted as the parameter `jsExp`. -/
def computeConfidenceFromLogprobs (jsExp : ℚ → ℚ) : Option Logprobs → Option ℚ
  | none => none
  | some lps =>
    match lps.content with
    | none => none
    | some content =>
      if content.length = 0 then none
      else
        let tokenLogprobs := (content.map (fun t => t.logprob)).filterMap id
        if tokenLogprobs.length = 0 then none
        else
          let sumLogprobs := tokenLogprobs.foldl (· + ·) 0
          let meanLogprob := sumLogprobs / (tokenLogprobs.length : ℚ)
          let geometricMean := jsExp meanLogprob
          let confidenceScore := geometricMean * 100
          some (jsMin 100 (jsMax 0 confidenceScore))

/-- An error thrown by an `openai.chat.completions.create` call, with the fields the
fallback logic inspects. `messageHasModel` records whether
`error.message?.toLowerCase().includes('model')` holds. -/
structure LLMError where
  status : Option Nat
  code : Option String
  messageHasModel : Bool
  message : String
  nestedCode : Option String
deriving Repr, DecidableEq

/-- The model-related-error test used at all three LLM call sites. -/
def isModelError (e : LLMError) : Bool :=
  e.status == some 404 || e.code == some "model_not_found" ||
    e.messageHasModel || e.nestedCode == some "model_not_found"

/-- A chat-completion response: `choices[0].message.content` (nullable) and
`choices[0].logprobs` (nullable). -/
structure LLMResponse where
  content : Option String
  logprobs : Option Logprobs
deriving Repr, DecidableEq

/-- Outcome of one `openai.chat.completions.create` call. -/
inductive LLMOutcome where
  | ok (r : LLMResponse)
  | err (e : LLMError)
deriving Repr, DecidableEq

/-- Result of the try/catch region around an LLM call: the final result and the
list of model names attempted, in order. -/
structure CallResult where
  result : Except LLMError LLMResponse
  attempts : List String
deriving Repr

/-- The try/catch around the LLM call in `generateSubtasks`: primary model
`gpt-4o-mini`; on a model-related error, one retry with `gpt-3.5-turbo`;
any other error propagates. Returns the next unconsumed oracle index. -/
def decompositionLLMCall (llm : Nat → LLMOutcome) (i : Nat) : CallResult × Nat :=
  match llm i with
  | .ok r => (⟨.ok r, ["gpt-4o-mini"]⟩, i + 1)
  | .err e =>
    if isModelError e then
      match llm (i + 1) with
      | .ok r => (⟨.ok r, ["gpt-4o-mini", "gpt-3.5-turbo"]⟩, i + 2)
      | .err e2 => (⟨.error e2, ["gpt-4o-mini", "gpt-3.5-turbo"]⟩, i + 2)
    else (⟨.error e, ["gpt-4o-mini"]⟩, i + 1)

/-- The try/catch around the LLM call in `synthesizeResults`: same shape as the
`generateSubtasks` site (primary `gpt-4o-mini`, fallback `gpt-3.5-turbo`). -/
def synthesisLLMCall (llm : Nat → LLMOutcome) (i : Nat) : CallResult × Nat :=
  match llm i with
  | .ok r => (⟨.ok r, ["gpt-4o-mini"]⟩, i + 1)
  | .err e =>
    if isModelError e then
      match llm (i + 1) with
      | .ok r => (⟨.ok r, ["gpt-4o-mini", "gpt-3.5-turbo"]⟩, i + 2)
      | .err e2 => (⟨.error e2, ["gpt-4o-mini", "gpt-3.5-turbo"]⟩, i + 2)
    else (⟨.error e, ["gpt-4o-mini"]⟩, i + 1)

/-- The try/catch around the LLM call in `executeAgentSubtask`: the requested
`model` is retried once with `gpt-4o-mini` only when the error is model-related
AND `model !== 'gpt-4o-mini'`; otherwise the error propagates. -/
def subtaskLLMCall (llm : Nat → LLMOutcome) (i : Nat) (model : String) :
    CallResult × Nat :=
  match llm i with
  | .ok r => (⟨.ok r, [model]⟩, i + 1)
  | .err e =>
    if isModelError e && model ≠ "gpt-4o-mini" then
      match llm (i + 1) with
      | .ok r => (⟨.ok r, [model, "gpt-4o-mini"]⟩, i + 2)
      | .err e2 => (⟨.error e2, [model, "gpt-4o-mini"]⟩, i + 2)
    else (⟨.error e, [model]⟩, i + 1)

/-- A row of `collaborative_tasks`. -/
structure TaskRow where
  id : String
  teamId : String
  userId : String
  title : String
  description : String
  status : String
  priority : String
  result : Option String
  versionNumber : Nat
  parentTaskId : Option String
  feedback : Option Int
  createdAt : Nat
  completedAt : Option Nat
deriving Repr, DecidableEq

/-- A row of `task_assignments`. -/
structure AssignmentRow where
  id : String
  taskId : String
  agentId : String
  subtaskDescription : String
  status : String
  result : Option String
  executionOrder : Nat
  startedAt : Option Nat
  completedAt : Option Nat
deriving Repr, DecidableEq

/-- A row of `agent_contributions`. -/
structure ContributionRow where
  taskId : String
  agentId : String
  contribution : String
  confidence : ℚ
  createdAt : Nat
deriving Repr, DecidableEq

/-- A row of `team_members`. -/
structure MemberRow where
  teamId : String
  agentId : String
  role : String
  isPrimaryAgent : Bool
deriving Repr, DecidableEq

/-- A row of `agents` (the columns the collaboration code touches). -/
structure AgentRow where
  id : String
  userId : String
  name : String
deriving Repr, DecidableEq

/-- A row of `teams`. -/
structure TeamRow where
  id : String
  userId : String
  name : String
  description : String
  status : String
  createdAt : Nat
deriving Repr, DecidableEq

/-- A row of `share_requests`. -/
structure ShareRequestRow where
  resourceType : String
  resourceId : String
  requesterUserId : String
  status : String
deriving Repr, DecidableEq

/-- A row of `resource_access`. -/
structure ResourceAccessRow where
  resourceType : String
  resourceId : String
  userId : String
deriving Repr, DecidableEq

/-- The in-memory Supabase database. -/
structure DB where
  tasks : List TaskRow
  assignments : List AssignmentRow
  contributions : List ContributionRow
  teamMembers : List MemberRow
  agents : List AgentRow
  teams : List TeamRow
  shareRequests : List ShareRequestRow
  resourceAccess : List ResourceAccessRow
deriving Repr, DecidableEq

/-- `update collaborative_tasks set status = ... where id = taskId`. -/
def updateTaskStatus (db : DB) (taskId status : String) : DB :=
  { db with tasks := db.tasks.map fun t =>
      if t.id = taskId then { t with status := status } else t }

/-- `update task_assignments set status='IN_PROGRESS', started_at=now where id = ...`. -/
def startAssignment (db : DB) (assignmentId : String) (now : Nat) : DB :=
  { db with assignments := db.assignments.map fun a =>
      if a.id = assignmentId then
        { a with status := "IN_PROGRESS", startedAt := some now } else a }

/-- `update task_assignments set status='COMPLETED', result, completed_at where id = ...`. -/
def completeAssignment (db : DB) (assignmentId result : String) (now : Nat) : DB :=
  { db with assignments := db.assignments.map fun a =>
      if a.id = assignmentId then
        { a with status := "COMPLETED", result := some result, completedAt := some now }
      else a }

/-- `insert into agent_contributions` as written in `executeCollaborativeTask`:
the `confidence` column receives the literal `0.85`, not the score returned by
`executeAgentSubtask`. -/
def insertContribution (db : DB) (taskId agentId contribution : String) (now : Nat) : DB :=
  { db with contributions := db.contributions ++
      [{ taskId := taskId, agentId := agentId, contribution := contribution,
         confidence := 0.85, createdAt := now }] }

/-- `update collaborative_tasks set status='COMPLETED', result, completed_at where id`. -/
def completeTask (db : DB) (taskId result : String) (now : Nat) : DB :=
  { db with tasks := db.tasks.map fun t =>
      if t.id = taskId then
        { t with status := "COMPLETED", result := some result, completedAt := some now }
      else t }

/-- An in-memory contribution as accumulated in the `contributions` array of
`executeCollaborativeTask`. -/
structure Contribution where
  agentName : String
  role : String
  result : String
deriving Repr, DecidableEq

/-- `new Map(teamMembers.map(tm => [tm.agent_id, tm.role])).get(agentId) || 'Agent'`;
for a duplicated key the last entry of a JavaScript `Map` constructor wins. -/
def lookupRole (members : List MemberRow) (agentId : String) : String :=
  ((members.filter fun m => m.agentId = agentId).getLast?.map fun m => m.role).getD "Agent"

/-- The `task_assignments` select of `executeCollaborativeTask`:
rows of the task ordered by `execution_order` ascending. -/
def selectAssignments (db : DB) (taskId : String) : List AssignmentRow :=
  (db.assignments.filter fun a => a.taskId = taskId).mergeSort
    fun a b => a.executionOrder ≤ b.executionOrder

/-- Trace of the observable steps of a run: the SSE events the source emits plus
instrumentation events recording each LLM request actually issued. -/
inductive Event where
  | statusMsg (message : String)
  | errorMsg (message : String)
  | agentStart (agentId agentName role subtask : String)
  | llmAgentCall (assignmentId model systemPrompt : String) (prev : List Contribution)
  | agentStream (content : String)
  | agentComplete (agentId agentName result : String)
  | synthesisStart
  | llmSynthCall (prompt : String) (contribs : List Contribution)
  | complete (result : String)
deriving Repr, DecidableEq

/-- The `context` block of the agent system prompt, built from the previous
contributions. -/
def contextString (prev : List Contribution) : String :=
  if 0 < prev.length then
    "\n\nPrevious team contributions:\n" ++
      String.intercalate "\n\n"
        (prev.map fun c => c.agentName ++ " (" ++ c.role ++ "): " ++ c.result)
  else ""

/-- The `docContext` block of the agent system prompt. -/
def docContextString (docs : List String) : String :=
  if 0 < docs.length then
    "\n\n📎 Attached documents:\n" ++ String.intercalate "\n" (docs.map fun d => "- " ++ d)
  else ""

/-- The system prompt of `executeAgentSubtask`. The source interpolates
`assignment.name`, `assignment.role` and `assignment.subtaskDescription`, but the row
returned by the select only carries the snake_case columns (`subtask_description`) with
the agent join under `assignment.agents`, so each of those three interpolates as the
string `undefined`. -/
def agentSystemPrompt (mainTaskDescription : String) (docs : List String)
    (prev : List Contribution) : String :=
  "You are undefined, a specialized AI agent with the role of undefined.\n\n" ++
    "Main Task: " ++ mainTaskDescription ++ docContextString docs ++
    "\n\nYour specific subtask: undefined" ++ contextString prev ++
    "\n\nProvide a focused, actionable response for your specific subtask. " ++
    "Be concise and professional."

/-- `JSON.parse(assignment.configuration || "{}").model || "gpt-4o-mini"`.
The joined row stores the agent's configuration at `assignment.agents.configuration`,
not `assignment.configuration`, so the parse input is always `"{}"` and the requested
model is always the default. -/
def subtaskModel : String := "gpt-4o-mini"

/-- `executeAgentSubtask`: builds the system prompt from the accumulated
contributions, performs the LLM call (with the model fallback of
`subtaskLLMCall`), and returns `(result, confidence)`. Any error of the call
region is caught by the outer catch, which returns
`"Error executing subtask: <error>"` with `null` confidence — it does not rethrow. -/
def executeAgentSubtask (jsExp : ℚ → ℚ) (llm : Nat → LLMOutcome) (i : Nat)
    (assignmentId mainTaskDescription : String)
    (previousContributions : List Contribution) (docs : List String) :
    (String × Option ℚ) × Nat × List Event :=
  let model := subtaskModel
  let systemPrompt := agentSystemPrompt mainTaskDescription docs previousContributions
  match subtaskLLMCall llm i model with
  | (⟨Except.ok r, _⟩, i') =>
    let fullResponse := r.content.getD ""
    let confidence := computeConfidenceFromLogprobs jsExp r.logprobs
    ((fullResponse.trim, confidence), i',
      [Event.llmAgentCall assignmentId model systemPrompt previousContributions,
       Event.agentStream fullResponse])
  | (⟨Except.error e, _⟩, i') =>
    (("Error executing subtask: " ++ e.message, none), i',
      [Event.llmAgentCall assignmentId model systemPrompt previousContributions])

/-- The synthesis prompt of `synthesizeResults`. -/
def synthesisPrompt (taskDescription : String) (contribs : List Contribution) : String :=
  "You are a synthesis coordinator. Multiple AI agents have worked on different " ++
    "aspects of a task. Your job is to combine their contributions into a " ++
    "comprehensive, cohesive final result.\n\nTask: " ++ taskDescription ++
    "\n\nAgent Contributions:\n" ++
    String.intercalate "\n\n---\n"
      (contribs.map fun c => "\n" ++ c.agentName ++ " (" ++ c.role ++ "):\n" ++ c.result) ++
    "\n\nSynthesize these contributions into a comprehensive final result."

/-- `synthesizeResults`: one LLM call with the `gpt-3.5-turbo` fallback; a `null`
content yields `"Synthesis failed"`; any error of the call region is caught by the
outer catch, which joins the raw contributions instead. -/
def synthesizeResults (llm : Nat → LLMOutcome) (i : Nat) (taskDescription : String)
    (contribs : List Contribution) : String × Nat × List Event :=
  let prompt := synthesisPrompt taskDescription contribs
  match synthesisLLMCall llm i with
  | (⟨Except.ok r, _⟩, i') =>
    (r.content.getD "Synthesis failed", i', [Event.llmSynthCall prompt contribs])
  | (⟨Except.error _, _⟩, i') =>
    (String.intercalate "\n\n" (contribs.map fun c => c.agentName ++ ": " ++ c.result),
      i', [Event.llmSynthCall prompt contribs])

/-- State threaded through the assignment loop of `executeCollaborativeTask`. -/
structure LoopSt where
  db : DB
  contribs : List Contribution
  llmIx : Nat
  dbIx : Nat
  tr : List Event
deriving Repr

/-- The `for (const assignment of assignments)` loop of `executeCollaborativeTask`.
Per iteration: emit `agent_start` (crashing if the agent join is null), update the
assignment to IN_PROGRESS, run `executeAgentSubtask`, persist the result as
COMPLETED, insert the contribution row (hardcoded confidence `0.85`), push the
in-memory contribution, emit `agent_complete`. A thrown database error aborts with
the state reached so far. -/
def execLoop (jsExp : ℚ → ℚ) (llm : Nat → LLMOutcome) (dbErr : Nat → Bool) (now : Nat)
    (taskId mainDesc : String) (members : List MemberRow) (docs : List String) :
    List AssignmentRow → LoopSt → Except (LoopSt × String) LoopSt
  | [], st => Except.ok st
  | a :: rest, st =>
    let role := lookupRole members a.agentId
    match st.db.agents.find? fun ag => ag.id = a.agentId with
    | none => Except.error (st, "TypeError: cannot read name of null")
    | some ag =>
      let tr1 := st.tr ++ [Event.agentStart a.agentId ag.name role a.subtaskDescription]
      if dbErr st.dbIx then
        Except.error ({ st with tr := tr1, dbIx := st.dbIx + 1 }, "db error")
      else
        let db1 := startAssignment st.db a.id now
        match executeAgentSubtask jsExp llm st.llmIx a.id mainDesc st.contribs docs with
        | ((result, _confidence), i', evs) =>
          let tr2 := tr1 ++ evs
          if dbErr (st.dbIx + 1) then
            Except.error (⟨db1, st.contribs, i', st.dbIx + 2, tr2⟩, "db error")
          else
            let db2 := completeAssignment db1 a.id result now
            if dbErr (st.dbIx + 2) then
              Except.error (⟨db2, st.contribs, i', st.dbIx + 3, tr2⟩, "db error")
            else
              let db3 := insertContribution db2 taskId a.agentId result now
              let c : Contribution := ⟨ag.name, lookupRole members a.agentId, result⟩
              let tr3 := tr2 ++ [Event.agentComplete a.agentId ag.name result]
              execLoop jsExp llm dbErr now taskId mainDesc members docs rest
                ⟨db3, st.contribs ++ [c], i', st.dbIx + 3, tr3⟩

/-- How a run of the body of `executeCollaborativeTask` ends: normal completion,
the task-not-found early return, or a thrown error (caught by the outer catch). -/
inductive ExecOutcome where
  | finished (db : DB) (tr : List Event)
  | notFound (db : DB) (tr : List Event)
  | threw (db : DB) (tr : List Event) (msg : String)
deriving Repr

/-- The try body of `executeCollaborativeTask`. Checked database operations consume
`dbErr 0` (status update to IN_PROGRESS), `dbErr 1` (task select), `dbErr 2`
(assignment select), `dbErr 3` (team-member select), then three per loop iteration,
then one for the final COMPLETED update. The `task_attachments` select sits in its
own try/catch whose errors are swallowed; its processed output is the `docs`
parameter. -/
def execBody (jsExp : ℚ → ℚ) (llm : Nat → LLMOutcome) (dbErr : Nat → Bool) (now : Nat)
    (taskId userId : String) (docs : List String) (db : DB) : ExecOutcome :=
  if dbErr 0 then ExecOutcome.threw db [] "db error"
  else
    let db1 := updateTaskStatus db taskId "IN_PROGRESS"
    let tr0 := [Event.statusMsg "Starting collaborative task execution..."]
    if dbErr 1 then ExecOutcome.threw db1 tr0 "db error"
    else
      match db1.tasks.filter fun t => t.id = taskId ∧ t.userId = userId with
      | [] => ExecOutcome.notFound db1 (tr0 ++ [Event.errorMsg "Task not found"])
      | task :: _ =>
        if dbErr 2 then ExecOutcome.threw db1 tr0 "db error"
        else
          let assignments := selectAssignments db1 taskId
          if dbErr 3 then ExecOutcome.threw db1 tr0 "db error"
          else
            let members := db1.teamMembers.filter fun m => m.teamId = task.teamId
            match execLoop jsExp llm dbErr now taskId task.description members docs
                assignments ⟨db1, [], 0, 4, tr0⟩ with
            | Except.error (st, msg) => ExecOutcome.threw st.db st.tr msg
            | Except.ok st =>
              let tr4 := st.tr ++ [Event.synthesisStart]
              let syn := synthesizeResults llm st.llmIx task.description st.contribs
              let tr5 := tr4 ++ syn.2.2
              if dbErr st.dbIx then ExecOutcome.threw st.db tr5 "db error"
              else
                ExecOutcome.finished (completeTask st.db taskId syn.1 now)
                  (tr5 ++ [Event.complete syn.1])

/-- `executeCollaborativeTask`: runs the body; the catch resets the task status to
PENDING (an unchecked update filtered on `id` only) and emits the error event. The
task-not-found early return performs no reset. -/
def executeCollaborativeTask (jsExp : ℚ → ℚ) (llm : Nat → LLMOutcome)
    (dbErr : Nat → Bool) (now : Nat) (taskId userId : String) (docs : List String)
    (db : DB) : DB × List Event :=
  match execBody jsExp llm dbErr now taskId userId docs db with
  | ExecOutcome.finished db' tr => (db', tr)
  | ExecOutcome.notFound db' tr => (db', tr)
  | ExecOutcome.threw db' tr msg =>
    (updateTaskStatus db' taskId "PENDING", tr ++ [Event.errorMsg msg])

/-- The joined row of the team-member select in `createCollaborativeTask`
(`team_members` with the `agents` embed; the embed is `null` when the agent row is
missing, hence the `Option` fields). -/
structure MemberJoin where
  member : MemberRow
  agentName : Option String
  agentType : Option String
deriving Repr, DecidableEq

/-- The team-member select of `createCollaborativeTask`: rows of the team ordered by
`is_primary_agent` descending, joined with their agent. -/
def selectMembersJoined (db : DB) (teamId : String) : List MemberJoin :=
  ((db.teamMembers.filter fun m => m.teamId = teamId).mergeSort
      fun a b => !b.isPrimaryAgent || a.isPrimaryAgent).map fun m =>
    { member := m,
      agentName := (db.agents.find? fun ag => ag.id = m.agentId).map fun ag => ag.name,
      agentType := none }

/-- An element of the JSON array the decomposition LLM is asked to produce. -/
structure RawSubtask where
  agentId : String
  description : String
deriving Repr, DecidableEq

/-- `generateSubtasks`: one decomposition LLM call (with the `gpt-3.5-turbo`
fallback); the response content is stripped of markdown fences and `JSON.parse`d —
both modelled together by the abstract `parseJson` parameter, where `none` is a
parse exception. On the success path each agent profile receives its matching
subtask or the default one; any caught error falls back to one generic subtask per
member. -/
def generateSubtasks (parseJson : String → Option (List RawSubtask))
    (llm : Nat → LLMOutcome) (i : Nat) (_taskDescription : String)
    (members : List MemberJoin) : List RawSubtask × Nat :=
  match decompositionLLMCall llm i with
  | (⟨Except.error _, _⟩, i') =>
    (members.map fun m =>
      { agentId := m.member.agentId,
        description := "Analyze the task from the perspective of " ++
          m.member.role ++ "." }, i')
  | (⟨Except.ok r, _⟩, i') =>
    match parseJson (r.content.getD "[]") with
    | none =>
      (members.map fun m =>
        { agentId := m.member.agentId,
          description := "Analyze the task from the perspective of " ++
            m.member.role ++ "." }, i')
    | some subtasks =>
      (members.map fun m =>
        match subtasks.find? fun s => s.agentId = m.member.agentId with
        | some s => s
        | none =>
          { agentId := m.member.agentId,
            description := "Provide analysis and insights from the perspective of " ++
              m.member.role ++ "." }, i')

/-- The `data` argument of `createCollaborativeTask`. -/
structure CreateData where
  title : String
  description : String
  priority : Option String
  parentTaskId : Option String
deriving Repr, DecidableEq

/-- `createCollaborativeTask`: computes the version number from the parent task
(defaulting to 1 when there is no parent or the parent select errors), inserts the
task row, selects the team members, generates one subtask per member and inserts one
`task_assignments` row per subtask with `execution_order = i + 1`. The
`crypto.randomUUID()` results are the `newTaskId` and `assignId` parameters; the
closing `getTaskById` re-read is elided and the inserted row returned directly. -/
def createCollaborativeTask (parseJson : String → Option (List RawSubtask))
    (llm : Nat → LLMOutcome) (i : Nat) (newTaskId : String) (assignId : Nat → String)
    (now : Nat) (teamId userId : String) (data : CreateData) (db : DB) :
    DB × TaskRow × Nat :=
  let versionNumber :=
    match data.parentTaskId with
    | none => 1
    | some pid =>
      match db.tasks.find? fun t => t.id = pid with
      | some parentTask => parentTask.versionNumber + 1
      | none => 1
  let task : TaskRow :=
    { id := newTaskId, teamId := teamId, userId := userId, title := data.title,
      description := data.description, status := "PENDING",
      priority := data.priority.getD "MEDIUM", result := none,
      versionNumber := versionNumber, parentTaskId := data.parentTaskId,
      feedback := none, createdAt := now, completedAt := none }
  let db1 := { db with tasks := db.tasks ++ [task] }
  let members := selectMembersJoined db1 teamId
  let gs := generateSubtasks parseJson llm i data.description members
  let newRows := gs.1.enum.map fun ks =>
    { id := assignId ks.1, taskId := newTaskId, agentId := ks.2.agentId,
      subtaskDescription := ks.2.description, status := "PENDING", result := none,
      executionOrder := ks.1 + 1, startedAt := none,
      completedAt := none : AssignmentRow }
  ({ db1 with assignments := db1.assignments ++ newRows }, task, gs.2)

/-- The row lookup and access check of `getTaskById` (owner of the task or of its
team, or an approved agent share from the team owner); the assignment/contribution
enrichment of the returned object is elided. -/
def getTaskByIdRow (db : DB) (taskId userId : String) : Except String TaskRow :=
  match db.tasks.find? fun t => t.id = taskId with
  | none => Except.error "Task not found"
  | some task =>
    let team := db.teams.find? fun tm => tm.id = task.teamId
    if task.userId = userId ∨ team.map (fun tm => tm.userId) = some userId then
      Except.ok task
    else
      let ownerAgents := db.agents.filter fun a =>
        team.map (fun tm => tm.userId) = some a.userId
      if 0 < ownerAgents.length then
        let agentIds := ownerAgents.map fun a => a.id
        match db.shareRequests.find? fun r =>
            r.resourceType = "agent" ∧ r.resourceId ∈ agentIds ∧
              r.requesterUserId = userId ∧ r.status = "approved" with
        | some _ => Except.ok task
        | none => Except.error "Task not found"
      else Except.error "Task not found"

/-- The `updates` argument of `createTaskVersion`. -/
structure VersionUpdates where
  title : Option String
  description : Option String
  priority : Option String
deriving Repr, DecidableEq

/-- `createTaskVersion`: re-reads the original task, then creates a new task whose
`parentTaskId` is `originalTask.parent_task_id || originalTaskId` — always the
family root. -/
def createTaskVersion (parseJson : String → Option (List RawSubtask))
    (llm : Nat → LLMOutcome) (i : Nat) (newTaskId : String) (assignId : Nat → String)
    (now : Nat) (originalTaskId userId : String) (updates : VersionUpdates)
    (db : DB) : Except String (DB × TaskRow × Nat) :=
  match getTaskByIdRow db originalTaskId userId with
  | Except.error e => Except.error e
  | Except.ok originalTask =>
    Except.ok (createCollaborativeTask parseJson llm i newTaskId assignId now
      originalTask.teamId userId
      { title := updates.title.getD originalTask.title,
        description := updates.description.getD originalTask.description,
        priority := some (updates.priority.getD originalTask.priority),
        parentTaskId := some (originalTask.parentTaskId.getD originalTaskId) } db)

/-- `update collaborative_tasks set feedback = ... where id = taskId`. -/
def updateTaskFeedback (db : DB) (taskId : String) (feedback : Int) : DB :=
  { db with tasks := db.tasks.map fun t =>
      if t.id = taskId then { t with feedback := some feedback } else t }

/-- `recordTaskFeedback`: checks access (task owner, team owner, or an approved
agent share on one of the team's agents) and then updates the `feedback` column
with the number it was given — there is no validation of the value itself. -/
def recordTaskFeedback (db : DB) (taskId userId : String) (feedback : Int) :
    Except String DB :=
  match db.tasks.find? fun t => t.id = taskId with
  | none => Except.error "Task not found or unauthorized"
  | some task =>
    let team := db.teams.find? fun tm => tm.id = task.teamId
    if task.userId = userId ∨ team.map (fun tm => tm.userId) = some userId then
      Except.ok (updateTaskFeedback db taskId feedback)
    else
      let agentIds := (db.teamMembers.filter fun m =>
        team.map (fun tm => tm.id) = some m.teamId).map fun m => m.agentId
      if 0 < agentIds.length then
        match db.shareRequests.find? fun r =>
            r.resourceType = "agent" ∧ r.resourceId ∈ agentIds ∧
              r.requesterUserId = userId ∧ r.status = "approved" with
        | some _ => Except.ok (updateTaskFeedback db taskId feedback)
        | none => Except.error "Task not found or unauthorized"
      else Except.error "Task not found or unauthorized"

/-- `TaskResults.handleFeedback` (frontend): clicking value `v` toggles the local
state (same value twice resets to 0) and posts the new value only when it is
nonzero. `some v` models the POST body value, `none` no request. -/
def handleFeedback (feedback value : Int) : Option Int :=
  let newFeedback := if feedback = value then 0 else value
  if newFeedback ≠ 0 then some newFeedback else none

/-- `TeamService.deleteTeam`: a soft delete — the row matching the id AND the
calling owner gets `status = 'ARCHIVED'`; nothing is removed. -/
def deleteTeam (db : DB) (teamId userId : String) : DB :=
  { db with teams := db.teams.map fun t =>
      if t.id = teamId ∧ t.userId = userId then { t with status := "ARCHIVED" } else t }

/-- `TeamService.getTeamsByUser`: the user's teams with `status = 'ACTIVE'`,
ordered by `created_at` descending (the per-team member enrichment is elided). -/
def getTeamsByUser (db : DB) (userId : String) : List TeamRow :=
  (db.teams.filter fun t => t.userId = userId ∧ t.status = "ACTIVE").mergeSort
    fun a b => b.createdAt ≤ a.createdAt

/-! Spec-side closed forms for the sequential-execution claim. The agent call of
`executeAgentSubtask` always requests the default model, so it is never retried and
consumes exactly one oracle outcome; the k-th agent step is therefore a function of
the k-th outcome alone. -/

/-- The result string an agent step produces from its oracle outcome. -/
def outcomeResult : LLMOutcome → String
  | LLMOutcome.ok r => (r.content.getD "").trim
  | LLMOutcome.err e => "Error executing subtask: " ++ e.message

/-- The confidence an agent step computes from its oracle outcome. -/
def outcomeConf (jsExp : ℚ → ℚ) : LLMOutcome → Option ℚ
  | LLMOutcome.ok r => computeConfidenceFromLogprobs jsExp r.logprobs
  | LLMOutcome.err _ => none

/-- The `agent_stream` events an agent step emits (none when the call threw). -/
def outcomeStreamEvents : LLMOutcome → List Event
  | LLMOutcome.ok r => [Event.agentStream (r.content.getD "")]
  | LLMOutcome.err _ => []

/-- An oracle outcome as the result of the call region. -/
def outcomeExcept : LLMOutcome → Except LLMError LLMResponse
  | LLMOutcome.ok r => Except.ok r
  | LLMOutcome.err e => Except.error e

/-- The display name of an agent as read off the `agents` join. -/
def agentNameOf (ags : List AgentRow) (agentId : String) : String :=
  ((ags.find? fun ag => ag.id = agentId).map fun ag => ag.name).getD ""

/-- The in-memory contribution the step for assignment `a` with outcome `o` pushes. -/
def specContribution (ags : List AgentRow) (members : List MemberRow)
    (a : AssignmentRow) (o : LLMOutcome) : Contribution :=
  ⟨agentNameOf ags a.agentId, lookupRole members a.agentId, outcomeResult o⟩

/-- Spec-side: the contributions the agents starting at oracle index `k` produce,
in execution order, each a function of its own outcome. -/
def specContribsFrom (ags : List AgentRow) (members : List MemberRow)
    (llm : Nat → LLMOutcome) : List AssignmentRow → Nat → List Contribution
  | [], _ => []
  | a :: rest, k =>
    specContribution ags members a (llm k) ::
      specContribsFrom ags members llm rest (k + 1)

/-- Spec-side: the event block of one agent step, whose LLM request carries exactly
the accumulated contributions `acc` of the agents that ran before it. -/
def specBlock (ags : List AgentRow) (members : List MemberRow) (mainDesc : String)
    (docs : List String) (a : AssignmentRow) (o : LLMOutcome)
    (acc : List Contribution) : List Event :=
  [Event.agentStart a.agentId (agentNameOf ags a.agentId)
      (lookupRole members a.agentId) a.subtaskDescription,
   Event.llmAgentCall a.id subtaskModel (agentSystemPrompt mainDesc docs acc) acc] ++
    outcomeStreamEvents o ++
    [Event.agentComplete a.agentId (agentNameOf ags a.agentId) (outcomeResult o)]

/-- Spec-side: the concatenated event blocks of the agents, processed strictly
sequentially, each receiving the contributions accumulated so far. -/
def specBlocks (ags : List AgentRow) (members : List MemberRow)
    (llm : Nat → LLMOutcome) (mainDesc : String) (docs : List String) :
    List AssignmentRow → Nat → List Contribution → List Event
  | [], _, _ => []
  | a :: rest, k, acc =>
    specBlock ags members mainDesc docs a (llm k) acc ++
      specBlocks ags members llm mainDesc docs rest (k + 1)
        (acc ++ [specContribution ags members a (llm k)])

/-- The database effect of one agent step of the loop: assignment set to
IN_PROGRESS, then COMPLETED with its result, then the contribution row inserted. -/
def applyStep (now : Nat) (taskId : String) (llm : Nat → LLMOutcome) (db : DB)
    (k : Nat) (a : AssignmentRow) : DB :=
  insertContribution
    (completeAssignment (startAssignment db a.id now) a.id (outcomeResult (llm k)) now)
    taskId a.agentId (outcomeResult (llm k)) now

/-- The database effect of the whole assignment loop. -/
def applySteps (now : Nat) (taskId : String) (llm : Nat → LLMOutcome) :
    List AssignmentRow → Nat → DB → DB
  | [], _, db => db
  | a :: rest, k, db =>
    applySteps now taskId llm rest (k + 1) (applyStep now taskId llm db k a)

/-- The context lists carried by the agent LLM requests of a trace, in order. -/
def agentCallContexts : List Event → List (List Contribution)
  | [] => []
  | Event.llmAgentCall _ _ _ prev :: tr => prev :: agentCallContexts tr
  | _ :: tr => agentCallContexts tr

/-- Spec-side comparator for the sequential-execution claim: the status event, then
the agent blocks strictly in sorted order — each LLM request carrying exactly the
contributions accumulated before it — then a single synthesis request over all
accumulated contributions, then the completion event. -/
def specSequentialTrace (ags : List AgentRow) (members : List MemberRow)
    (llm : Nat → LLMOutcome) (desc : String) (docs : List String)
    (sorted : List AssignmentRow) : List Event :=
  [Event.statusMsg "Starting collaborative task execution..."] ++
    specBlocks ags members llm desc docs sorted 0 [] ++
    [Event.synthesisStart,
     Event.llmSynthCall
       (synthesisPrompt desc (specContribsFrom ags members llm sorted 0))
       (specContribsFrom ags members llm sorted 0),
     Event.complete
       (synthesizeResults llm sorted.length desc
         (specContribsFrom ags members llm sorted 0)).1]

/-! Concrete fixtures used by the closed theorems. -/

/-- A pending task row used by several fixtures. -/
def taskFix (taskId teamId userId : String) : TaskRow :=
  { id := taskId, teamId := teamId, userId := userId, title := "demo",
    description := "d", status := "PENDING", priority := "MEDIUM", result := none,
    versionNumber := 1, parentTaskId := none, feedback := none, createdAt := 0,
    completedAt := none }

/-- A pending assignment row used by several fixtures. -/
def assignFix (id taskId agentId : String) (ord : Nat) : AssignmentRow :=
  { id := id, taskId := taskId, agentId := agentId, subtaskDescription := "s",
    status := "PENDING", result := none, executionOrder := ord, startedAt := none,
    completedAt := none }

/-- The empty database. -/
def emptyDB : DB := ⟨[], [], [], [], [], [], [], []⟩

/-- C1 fixture: one visible task with one assignment whose agent exists. -/
def dbC1 : DB :=
  { emptyDB with
    tasks := [taskFix "t" "T" "u"],
    assignments := [assignFix "a1" "t" "A" 1],
    teamMembers := [⟨"T", "A", "Writer", true⟩],
    agents := [⟨"A", "u", "Alpha"⟩] }

/-- C1 fixture: the agent response has a single token of log-probability 0 and the
synthesis response is plain text. -/
def llmC1 : Nat → LLMOutcome := fun n =>
  if n = 0 then LLMOutcome.ok ⟨some "Great", some ⟨some [⟨some 0⟩]⟩⟩
  else LLMOutcome.ok ⟨some "Final", none⟩

/-- C2 fixture: one visible task with two assignments. -/
def dbC2 : DB :=
  { emptyDB with
    tasks := [taskFix "t" "T" "u"],
    assignments := [assignFix "a1" "t" "A" 1, assignFix "a2" "t" "B" 2],
    teamMembers := [⟨"T", "A", "Critic", true⟩, ⟨"T", "B", "Writer", false⟩],
    agents := [⟨"A", "u", "Alpha"⟩, ⟨"B", "u", "Beta"⟩] }

/-- C2 fixture: the first agent call throws a non-model error, the remaining calls
succeed. -/
def llmC2 : Nat → LLMOutcome := fun n =>
  if n = 0 then LLMOutcome.err ⟨none, none, false, "boom", none⟩
  else if n = 1 then LLMOutcome.ok ⟨some "Beta says", none⟩
  else LLMOutcome.ok ⟨some "Final", none⟩

/-- C3 counterexample fixture: the task exists but belongs to another user. -/
def dbC3x : DB := { emptyDB with tasks := [taskFix "t" "T" "other"] }

/-- C3 witness fixture: a visible task with no assignments. -/
def dbC3v : DB := { emptyDB with tasks := [taskFix "t" "T" "u"] }

/-- An LLM oracle whose calls always succeed with empty content. -/
def llmTrivial : Nat → LLMOutcome := fun _ => LLMOutcome.ok ⟨none, none⟩

/-- The completed form of the C3 witness task after its run. -/
def taskC3done : TaskRow :=
  { taskFix "t" "T" "u" with
    status := "COMPLETED", result := some "Synthesis failed", completedAt := some 0 }

/-- C4 fixture: one visible task with two assignments, listed out of order. -/
def dbC4 : DB :=
  { emptyDB with
    tasks := [taskFix "t" "T" "u"],
    assignments := [assignFix "a2" "t" "B" 2, assignFix "a1" "t" "A" 1],
    teamMembers := [⟨"T", "A", "Critic", true⟩, ⟨"T", "B", "Writer", false⟩],
    agents := [⟨"A", "u", "Alpha"⟩, ⟨"B", "u", "Beta"⟩] }

/-- C4 fixture: distinct successful responses per call. -/
def llmC4 : Nat → LLMOutcome := fun n =>
  if n = 0 then LLMOutcome.ok ⟨some "one", none⟩
  else if n = 1 then LLMOutcome.ok ⟨some "two", none⟩
  else LLMOutcome.ok ⟨some "Final", none⟩

/-- C5 fixture: a team with two members; the decomposition response omits agent
`A2`, exercising the default-subtask substitution. -/
def dbC5 : DB :=
  { emptyDB with
    teamMembers := [⟨"T", "A1", "Critic", true⟩, ⟨"T", "A2", "Writer", false⟩],
    agents := [⟨"A1", "u", "Alpha"⟩, ⟨"A2", "u", "Beta"⟩] }

/-- C5 fixture: the parsed decomposition array mentions only agent `A1`. -/
def pjC5 : String → Option (List RawSubtask) := fun _ => some [⟨"A1", "do x"⟩]

/-- C6 fixture: a root task `r` (version 1) and its derived version `c`
(version 2), on team `T` owned by `u`. -/
def dbC6 : DB :=
  { emptyDB with
    tasks := [taskFix "r" "T" "u",
      { taskFix "c" "T" "u" with versionNumber := 2, parentTaskId := some "r" }],
    teams := [⟨"T", "u", "team", "", "ACTIVE", 0⟩] }

/-- The task row of version `c` in `dbC6`. -/
def taskC6c : TaskRow :=
  { taskFix "c" "T" "u" with versionNumber := 2, parentTaskId := some "r" }

/-- An LLM oracle that always throws a non-model error. -/
def llmErr : Nat → LLMOutcome := fun _ => LLMOutcome.err ⟨none, none, false, "boom", none⟩

/-- The result of the C6 version creation, extracted from the model. -/
def outC6 : DB × TaskRow × Nat :=
  (createTaskVersion (fun _ => none) llmErr 0 "v3" (fun _ => "x") 5 "c" "u"
    ⟨none, none, none⟩ dbC6).toOption.getD ⟨dbC6, taskC6c, 0⟩

/-- C7 fixture: a task owned by `u`. -/
def dbC7 : DB := { emptyDB with tasks := [taskFix "t" "T" "u"] }

/-- C7 witness fixture: the task row after feedback 1 is recorded. -/
def taskC7fb : TaskRow := { taskFix "t" "T" "u" with feedback := some 1 }

/-- C8 fixture: one active team owned by `u`. -/
def teamC8 : TeamRow := ⟨"T", "u", "team", "", "ACTIVE", 3⟩

/-- C8 fixture database. -/
def dbC8 : DB := { emptyDB with teams := [teamC8] }

end Collab

namespace Collab

/-! Helper lemmas. -/

theorem subtaskLLMCall_default (llm : Nat → LLMOutcome) (i : Nat) :
    subtaskLLMCall llm i "gpt-4o-mini" =
      (⟨outcomeExcept (llm i), ["gpt-4o-mini"]⟩, i + 1) := by
  cases h : llm i <;> simp [subtaskLLMCall, h, outcomeExcept]

theorem executeAgentSubtask_eq (jsExp : ℚ → ℚ) (llm : Nat → LLMOutcome) (i : Nat)
    (aid desc : String) (prev : List Contribution) (docs : List String) :
    executeAgentSubtask jsExp llm i aid desc prev docs =
      ((outcomeResult (llm i), outcomeConf jsExp (llm i)), i + 1,
        Event.llmAgentCall aid subtaskModel (agentSystemPrompt desc docs prev) prev ::
          outcomeStreamEvents (llm i)) := by
  cases h : llm i <;>
    simp [executeAgentSubtask, subtaskModel, subtaskLLMCall_default, h, outcomeExcept,
      outcomeResult, outcomeConf, outcomeStreamEvents]

theorem applyStep_agents (now : Nat) (taskId : String) (llm : Nat → LLMOutcome)
    (db : DB) (k : Nat) (a : AssignmentRow) :
    (applyStep now taskId llm db k a).agents = db.agents := rfl

theorem applyStep_tasks (now : Nat) (taskId : String) (llm : Nat → LLMOutcome)
    (db : DB) (k : Nat) (a : AssignmentRow) :
    (applyStep now taskId llm db k a).tasks = db.tasks := rfl

theorem execLoop_ok_spec (jsExp : ℚ → ℚ) (llm : Nat → LLMOutcome) (now : Nat)
    (taskId mainDesc : String) (members : List MemberRow) (docs : List String)
    (ags : List AgentRow) (l : List AssignmentRow) :
    ∀ st : LoopSt, st.db.agents = ags →
      (∀ a ∈ l, (ags.find? fun g => g.id = a.agentId).isSome = true) →
      execLoop jsExp llm (fun _ => false) now taskId mainDesc members docs l st =
        Except.ok ⟨applySteps now taskId llm l st.llmIx st.db,
          st.contribs ++ specContribsFrom ags members llm l st.llmIx,
          st.llmIx + l.length, st.dbIx + 3 * l.length,
          st.tr ++ specBlocks ags members llm mainDesc docs l st.llmIx st.contribs⟩ := by
  induction l with
  | nil =>
    intro st hags _
    simp [execLoop, applySteps, specContribsFrom, specBlocks]
  | cons a rest ih =>
    intro st hags hfind
    obtain ⟨ag, hag⟩ := Option.isSome_iff_exists.mp (hfind a (by simp))
    simp only [execLoop, hags, hag, executeAgentSubtask_eq]
    rw [ih ⟨_, _, _, _, _⟩ (by simp [insertContribution, completeAssignment,
      startAssignment, hags]) (fun a' ha' => hfind a' (by simp [ha']))]
    simp only [applySteps, applyStep, specContribsFrom, specBlocks, specBlock,
      specContribution, agentNameOf, hag, Option.map_some, Option.getD_some]
    refine congrArg Except.ok ?_
    simp [List.append_assoc, List.length_cons, Nat.mul_add, Nat.add_comm,
      Nat.add_assoc, Nat.add_left_comm]

theorem updateTaskStatus_agents (db : DB) (tid s : String) :
    (updateTaskStatus db tid s).agents = db.agents := rfl

theorem updateTaskStatus_teamMembers (db : DB) (tid s : String) :
    (updateTaskStatus db tid s).teamMembers = db.teamMembers := rfl

theorem selectAssignments_updateTaskStatus (db : DB) (tid s tid2 : String) :
    selectAssignments (updateTaskStatus db tid s) tid2 = selectAssignments db tid2 := rfl

theorem updateTaskStatus_filter_vis (db : DB) (tid s taskId userId : String) :
    (updateTaskStatus db tid s).tasks.filter
        (fun t => t.id = taskId ∧ t.userId = userId) =
      (db.tasks.filter fun t => t.id = taskId ∧ t.userId = userId).map
        fun t => if t.id = tid then { t with status := s } else t := by
  simp only [updateTaskStatus]
  rw [List.filter_map]
  congr 1
  apply List.filter_congr
  intro t _
  by_cases h : t.id = tid <;> simp [h, Function.comp]

theorem synthesizeResults_events (llm : Nat → LLMOutcome) (i : Nat) (d : String)
    (c : List Contribution) :
    (synthesizeResults llm i d c).2.2 =
      [Event.llmSynthCall (synthesisPrompt d c) c] := by
  rcases h : synthesisLLMCall llm i with ⟨⟨res, att⟩, i'⟩
  cases res <;> simp [synthesizeResults, h]

theorem execBody_visible (jsExp : ℚ → ℚ) (llm : Nat → LLMOutcome) (now : Nat)
    (taskId userId : String) (docs : List String) (db : DB) (task : TaskRow)
    (rest : List TaskRow)
    (hvis : db.tasks.filter (fun t => t.id = taskId ∧ t.userId = userId) = task :: rest)
    (hagents : ∀ a ∈ selectAssignments db taskId,
      (db.agents.find? fun g => g.id = a.agentId).isSome = true) :
    execBody jsExp llm (fun _ => false) now taskId userId docs db =
      ExecOutcome.finished
        (completeTask
          (applySteps now taskId llm (selectAssignments db taskId) 0
            (updateTaskStatus db taskId "IN_PROGRESS"))
          taskId
          (synthesizeResults llm (selectAssignments db taskId).length task.description
            (specContribsFrom db.agents
              (db.teamMembers.filter fun m => m.teamId = task.teamId) llm
              (selectAssignments db taskId) 0)).1 now)
        ([Event.statusMsg "Starting collaborative task execution..."] ++
          specBlocks db.agents (db.teamMembers.filter fun m => m.teamId = task.teamId)
            llm task.description docs (selectAssignments db taskId) 0 [] ++
          [Event.synthesisStart,
           Event.llmSynthCall
             (synthesisPrompt task.description
               (specContribsFrom db.agents
                 (db.teamMembers.filter fun m => m.teamId = task.teamId) llm
                 (selectAssignments db taskId) 0))
             (specContribsFrom db.agents
               (db.teamMembers.filter fun m => m.teamId = task.teamId) llm
               (selectAssignments db taskId) 0),
           Event.complete
             (synthesizeResults llm (selectAssignments db taskId).length task.description
               (specContribsFrom db.agents
                 (db.teamMembers.filter fun m => m.teamId = task.teamId) llm
                 (selectAssignments db taskId) 0)).1]) := by
  have hid : task.id = taskId ∧ task.userId = userId := by
    have h1 : task ∈ db.tasks.filter (fun t => t.id = taskId ∧ t.userId = userId) := by
      rw [hvis]; exact List.mem_cons_self _ _
    simpa using (List.mem_filter.mp h1).2
  simp only [execBody, Bool.false_eq_true, if_false]
  rw [updateTaskStatus_filter_vis, hvis]
  simp only [List.map_cons, hid.1, if_pos]
  rw [selectAssignments_updateTaskStatus, updateTaskStatus_teamMembers]
  rw [execLoop_ok_spec jsExp llm now taskId task.description
    (db.teamMembers.filter fun m => m.teamId = task.teamId) docs db.agents
    (selectAssignments db taskId)
    ⟨updateTaskStatus db taskId "IN_PROGRESS", [], 0, 4,
      [Event.statusMsg "Starting collaborative task execution..."]⟩ rfl hagents]
  simp [synthesizeResults_events, List.append_assoc]

theorem jsClamp_bounds (x : ℚ) :
    0 ≤ jsMin 100 (jsMax 0 x) ∧ jsMin 100 (jsMax 0 x) ≤ 100 := by
  unfold jsMin jsMax
  split_ifs <;> constructor <;> linarith

theorem computeConfidence_shape (jsExp : ℚ → ℚ) (lp : Option Logprobs) :
    computeConfidenceFromLogprobs jsExp lp = none ∨
      ∃ x, computeConfidenceFromLogprobs jsExp lp = some (jsMin 100 (jsMax 0 x)) := by
  cases lp with
  | none => exact Or.inl rfl
  | some l =>
    cases hc : l.content with
    | none => left; simp [computeConfidenceFromLogprobs, hc]
    | some c =>
      simp only [computeConfidenceFromLogprobs, hc]
      split_ifs with h1 h2
      · exact Or.inl rfl
      · exact Or.inl rfl
      · exact Or.inr ⟨_, rfl⟩

/-- C10: `computeConfidenceFromLogprobs` is total on all inputs (it is a Lean
function) and returns `none` exactly when the logprobs object is absent, has no
content, or contains no non-null token logprobs; any returned score lies in the
closed interval [0, 100]. -/
theorem C10_confidence_total_range (jsExp : ℚ → ℚ) (lp : Option Logprobs) :
    (computeConfidenceFromLogprobs jsExp lp = none ↔
      lp = none ∨ ∃ l, lp = some l ∧ (l.content = none ∨
        ∃ c, l.content = some c ∧ (c.map (fun t => t.logprob)).filterMap id = [])) ∧
    ∀ q, computeConfidenceFromLogprobs jsExp lp = some q → 0 ≤ q ∧ q ≤ 100 := by
  constructor
  · cases lp with
    | none => simp [computeConfidenceFromLogprobs]
    | some l =>
      cases hc : l.content with
      | none => simp [computeConfidenceFromLogprobs, hc]
      | some c =>
        by_cases hlen : c.length = 0
        · have hcnil : c = [] := List.length_eq_zero.mp hlen
          subst hcnil
          simp [computeConfidenceFromLogprobs, hc]
        · by_cases hf : (c.map (fun t => t.logprob)).filterMap id = []
          · constructor
            · intro _
              exact Or.inr ⟨l, rfl, Or.inr ⟨c, hc, hf⟩⟩
            · intro _
              simp [computeConfidenceFromLogprobs, hc, hlen, hf]
          · have hfl : ((c.map (fun t => t.logprob)).filterMap id).length ≠ 0 := by
              simpa [List.length_eq_zero] using hf
            simp [computeConfidenceFromLogprobs, hc, hlen, hf, hfl]
  · intro q hq
    rcases computeConfidence_shape jsExp lp with hsh | ⟨x, hsh⟩
    · rw [hsh] at hq; cases hq
    · rw [hsh] at hq
      cases hq
      exact jsClamp_bounds x

/-- C10 witness: a concrete one-token input evaluates to a score inside the range. -/
theorem C10_witness : 0 ≤ (100 : ℚ) ∧ (100 : ℚ) ≤ 100 :=
  (C10_confidence_total_range (fun _ => 2) (some ⟨some [⟨some 0⟩]⟩)).2 100 (by
    norm_num [computeConfidenceFromLogprobs, jsMin, jsMax]
    intro h
    cases h)

/-- C9 counterexample: at the `executeAgentSubtask` call site with the (always
requested) default model `gpt-4o-mini`, a model-related error (HTTP 404) does NOT
cause a retry with a fallback model: it propagates after a single attempt. -/
theorem C9_counterexample :
    subtaskLLMCall (fun _ => LLMOutcome.err ⟨some 404, none, false, "gone", none⟩) 0
        "gpt-4o-mini" =
      (⟨Except.error ⟨some 404, none, false, "gone", none⟩, ["gpt-4o-mini"]⟩, 1) := by
  rfl

/-- C9 (amended): error handling around the LLM provider is a single hardcoded
model-name fallback: a non-model error propagates after one attempt at every call
site; a model-related error is retried exactly once with `gpt-3.5-turbo` at the
`generateSubtasks` and `synthesizeResults` sites, and with `gpt-4o-mini` at the
`executeAgentSubtask` site only when the requested model differs from
`gpt-4o-mini` — with the default model it propagates without retry. -/
theorem C9_single_fallback (llm : Nat → LLMOutcome) (i : Nat) (model : String)
    (e : LLMError) (he : llm i = LLMOutcome.err e) :
    (isModelError e = false →
      decompositionLLMCall llm i = (⟨Except.error e, ["gpt-4o-mini"]⟩, i + 1) ∧
      synthesisLLMCall llm i = (⟨Except.error e, ["gpt-4o-mini"]⟩, i + 1) ∧
      subtaskLLMCall llm i model = (⟨Except.error e, [model]⟩, i + 1)) ∧
    (isModelError e = true →
      decompositionLLMCall llm i =
        (⟨outcomeExcept (llm (i + 1)), ["gpt-4o-mini", "gpt-3.5-turbo"]⟩, i + 2) ∧
      synthesisLLMCall llm i =
        (⟨outcomeExcept (llm (i + 1)), ["gpt-4o-mini", "gpt-3.5-turbo"]⟩, i + 2) ∧
      (model ≠ "gpt-4o-mini" →
        subtaskLLMCall llm i model =
          (⟨outcomeExcept (llm (i + 1)), [model, "gpt-4o-mini"]⟩, i + 2)) ∧
      subtaskLLMCall llm i "gpt-4o-mini" =
        (⟨Except.error e, ["gpt-4o-mini"]⟩, i + 1)) := by
  constructor
  · intro hmod
    refine ⟨?_, ?_, ?_⟩ <;>
      simp [decompositionLLMCall, synthesisLLMCall, subtaskLLMCall, he, hmod]
  · intro hmod
    refine ⟨?_, ?_, ?_, ?_⟩
    · cases h2 : llm (i + 1) <;>
        simp [decompositionLLMCall, he, hmod, h2, outcomeExcept]
    · cases h2 : llm (i + 1) <;>
        simp [synthesisLLMCall, he, hmod, h2, outcomeExcept]
    · intro hm
      cases h2 : llm (i + 1) <;>
        simp [subtaskLLMCall, he, hmod, hm, h2, outcomeExcept]
    · simp [subtaskLLMCall, he, hmod]

/-- C9 witness: a concrete non-model error propagates un-retried at the
decomposition site. -/
theorem C9_witness :
    decompositionLLMCall (fun _ => LLMOutcome.err ⟨none, none, false, "x", none⟩) 0 =
      (⟨Except.error ⟨none, none, false, "x", none⟩, ["gpt-4o-mini"]⟩, 1) :=
  ((C9_single_fallback (fun _ => LLMOutcome.err ⟨none, none, false, "x", none⟩) 0
    "m" ⟨none, none, false, "x", none⟩ rfl).1 (by decide)).1

theorem updateTaskStatus_status (db : DB) (tid s : String) :
    ∀ t ∈ (updateTaskStatus db tid s).tasks, t.id = tid → t.status = s := by
  intro t ht hid
  simp only [updateTaskStatus] at ht
  obtain ⟨x, hx, rfl⟩ := List.mem_map.mp ht
  by_cases h : x.id = tid
  · simp [h]
  · rw [if_neg h] at hid ⊢
    exact absurd hid h

theorem completeTask_status (db : DB) (tid r : String) (now : Nat) :
    ∀ t ∈ (completeTask db tid r now).tasks, t.id = tid → t.status = "COMPLETED" := by
  intro t ht hid
  simp only [completeTask] at ht
  obtain ⟨x, hx, rfl⟩ := List.mem_map.mp ht
  by_cases h : x.id = tid
  · simp [h]
  · rw [if_neg h] at hid ⊢
    exact absurd hid h

theorem completeTask_assignments (db : DB) (tid r : String) (now : Nat) :
    (completeTask db tid r now).assignments = db.assignments := rfl

theorem execBody_shape (jsExp : ℚ → ℚ) (llm : Nat → LLMOutcome) (dbErr : Nat → Bool)
    (now : Nat) (taskId userId : String) (docs : List String) (db : DB)
    (hvis : db.tasks.filter (fun t => t.id = taskId ∧ t.userId = userId) ≠ []) :
    (∃ db0 r tr, execBody jsExp llm dbErr now taskId userId docs db =
        ExecOutcome.finished (completeTask db0 taskId r now) tr) ∨
    (∃ db0 tr msg, execBody jsExp llm dbErr now taskId userId docs db =
        ExecOutcome.threw db0 tr msg) := by
  rcases hl : db.tasks.filter (fun t => t.id = taskId ∧ t.userId = userId) with
    _ | ⟨task, rest2⟩
  · exact absurd hl hvis
  · simp only [execBody]
    rw [updateTaskStatus_filter_vis, hl, List.map_cons]
    repeat' split
    all_goals
      first
        | exact Or.inl ⟨_, _, _, rfl⟩
        | exact Or.inr ⟨_, _, _, rfl⟩
        | simp_all

/-- C3 (amended): a run of executeCollaborativeTask that finds the task visible to
the caller always terminates with the task status COMPLETED (success) or PENDING
(any thrown error); the task-not-found early return, however, leaves a task set to
IN_PROGRESS (see the counterexample). -/
theorem C3_terminal_status (jsExp : ℚ → ℚ) (llm : Nat → LLMOutcome)
    (dbErr : Nat → Bool) (now : Nat) (taskId userId : String) (docs : List String)
    (db : DB) (task : TaskRow) (rest : List TaskRow)
    (hvis : db.tasks.filter (fun t => t.id = taskId ∧ t.userId = userId) =
      task :: rest) :
    ∀ t ∈ (executeCollaborativeTask jsExp llm dbErr now taskId userId docs db).1.tasks,
      t.id = taskId → t.status = "COMPLETED" ∨ t.status = "PENDING" := by
  intro t ht hid
  have hne : db.tasks.filter (fun t => t.id = taskId ∧ t.userId = userId) ≠ [] := by
    rw [hvis]; exact List.cons_ne_nil _ _
  rcases execBody_shape jsExp llm dbErr now taskId userId docs db hne with
    ⟨db0, r, tr, hB⟩ | ⟨db0, tr, msg, hB⟩
  · rw [executeCollaborativeTask, hB] at ht
    exact Or.inl (completeTask_status db0 taskId r now t ht hid)
  · rw [executeCollaborativeTask, hB] at ht
    exact Or.inr (updateTaskStatus_status db0 taskId "PENDING" t ht hid)

/-- C3 counterexample: when the task exists but belongs to another user, the run
first sets it IN_PROGRESS and then takes the task-not-found early return without
any reset, leaving the task stuck IN_PROGRESS — the claimed "back to PENDING on
the task-not-found path" does not happen. -/
theorem C3_counterexample :
    ((executeCollaborativeTask (fun _ => 1) llmTrivial (fun _ => false) 0 "t" "u" []
        dbC3x).1.tasks.map fun t => t.status) = ["IN_PROGRESS"] := by
  decide

/-- C3 witness: a visible task with no assignments runs to COMPLETED. -/
theorem C3_witness :
    taskC3done.status = "COMPLETED" ∨ taskC3done.status = "PENDING" :=
  C3_terminal_status (fun _ => 1) llmTrivial (fun _ => false) 0 "t" "u" [] dbC3v
    (taskFix "t" "T" "u") [] (by decide) _ (by
      simp [executeCollaborativeTask, execBody, execLoop, selectAssignments,
        List.mergeSort, updateTaskStatus, completeTask, synthesizeResults,
        synthesisLLMCall, llmTrivial, dbC3v, taskFix, taskC3done, emptyDB,
        synthesisPrompt]) (by decide)

theorem agentCallContexts_append (xs ys : List Event) :
    agentCallContexts (xs ++ ys) = agentCallContexts xs ++ agentCallContexts ys := by
  induction xs with
  | nil => rfl
  | cons e xs ih => cases e <;> simp [agentCallContexts, ih]

theorem agentCallContexts_specBlock (ags : List AgentRow) (members : List MemberRow)
    (mainDesc : String) (docs : List String) (a : AssignmentRow) (o : LLMOutcome)
    (acc : List Contribution) :
    agentCallContexts (specBlock ags members mainDesc docs a o acc) = [acc] := by
  cases o <;>
    simp [specBlock, outcomeStreamEvents, agentCallContexts, agentCallContexts_append]

theorem agentCallContexts_specBlocks (ags : List AgentRow) (members : List MemberRow)
    (llm : Nat → LLMOutcome) (mainDesc : String) (docs : List String)
    (l : List AssignmentRow) :
    ∀ (k : Nat) (acc : List Contribution),
      agentCallContexts (specBlocks ags members llm mainDesc docs l k acc) =
        (List.range l.length).map
          (fun j => acc ++ (specContribsFrom ags members llm l k).take j) := by
  induction l with
  | nil => intro k acc; simp [specBlocks, specContribsFrom, agentCallContexts]
  | cons a rest ih =>
    intro k acc
    rw [specBlocks, agentCallContexts_append, agentCallContexts_specBlock,
      ih (k + 1) (acc ++ [specContribution ags members a (llm k)]),
      specContribsFrom, List.length_cons, List.range_succ_eq_map]
    simp [List.map_map, Function.comp, List.take_succ_cons, List.append_assoc]

/-- C4: executeCollaborativeTask processes the task's assignments strictly
sequentially in ascending execution_order (the sorted selection, a permutation of
the task's assignment rows); the LLM request of the k-th agent carries exactly the
contributions of the k-1 agents that ran before it (empty for the first agent);
and the synthesis call comes after every assignment, over all accumulated
contributions — the whole trace equals the spec-side sequential trace. -/
theorem C4_sequential_inorder (jsExp : ℚ → ℚ) (llm : Nat → LLMOutcome) (now : Nat)
    (taskId userId : String) (docs : List String) (db : DB) (task : TaskRow)
    (rest : List TaskRow)
    (hvis : db.tasks.filter (fun t => t.id = taskId ∧ t.userId = userId) =
      task :: rest)
    (hagents : ∀ a ∈ selectAssignments db taskId,
      (db.agents.find? fun g => g.id = a.agentId).isSome = true) :
    (executeCollaborativeTask jsExp llm (fun _ => false) now taskId userId docs db).2 =
      specSequentialTrace db.agents
        (db.teamMembers.filter fun m => m.teamId = task.teamId) llm task.description
        docs (selectAssignments db taskId) ∧
    agentCallContexts
        (executeCollaborativeTask jsExp llm (fun _ => false) now taskId userId docs
          db).2 =
      (List.range (selectAssignments db taskId).length).map
        (fun k => (specContribsFrom db.agents
          (db.teamMembers.filter fun m => m.teamId = task.teamId) llm
          (selectAssignments db taskId) 0).take k) ∧
    (selectAssignments db taskId).Pairwise
      (fun a b => a.executionOrder ≤ b.executionOrder) ∧
    (selectAssignments db taskId).Perm
      (db.assignments.filter fun a => a.taskId = taskId) := by
  have htr : (executeCollaborativeTask jsExp llm (fun _ => false) now taskId userId
      docs db).2 =
      specSequentialTrace db.agents
        (db.teamMembers.filter fun m => m.teamId = task.teamId) llm task.description
        docs (selectAssignments db taskId) := by
    rw [executeCollaborativeTask,
      execBody_visible jsExp llm now taskId userId docs db task rest hvis hagents]
    simp [specSequentialTrace, List.append_assoc]
  refine ⟨htr, ?_, ?_, ?_⟩
  · rw [htr]
    simp [specSequentialTrace, agentCallContexts_append, agentCallContexts_specBlocks,
      agentCallContexts]
  · have hs := @List.sorted_mergeSort AssignmentRow
      (fun a b => decide (a.executionOrder ≤ b.executionOrder))
      (fun a b c hab hbc => by
        simp only [decide_eq_true_eq] at *
        exact le_trans hab hbc)
      (fun a b => by
        simp only [Bool.or_eq_true, decide_eq_true_eq]
        exact Nat.le_total _ _)
      (db.assignments.filter fun a => a.taskId = taskId)
    refine hs.imp ?_
    intro a b h
    simpa using h
  · exact List.mergeSort_perm _ _

/-- C4 witness: a concrete two-assignment run matches the spec-side sequential
trace. -/
theorem C4_witness :
    (executeCollaborativeTask (fun _ => 1) llmC4 (fun _ => false) 9 "t" "u" []
        dbC4).2 =
      specSequentialTrace dbC4.agents
        (dbC4.teamMembers.filter fun m =>
          m.teamId = (taskFix "t" "T" "u").teamId) llmC4
        (taskFix "t" "T" "u").description [] (selectAssignments dbC4 "t") ∧
    agentCallContexts
        (executeCollaborativeTask (fun _ => 1) llmC4 (fun _ => false) 9 "t" "u" []
          dbC4).2 =
      (List.range (selectAssignments dbC4 "t").length).map
        (fun k => (specContribsFrom dbC4.agents
          (dbC4.teamMembers.filter fun m =>
            m.teamId = (taskFix "t" "T" "u").teamId) llmC4
          (selectAssignments dbC4 "t") 0).take k) ∧
    (selectAssignments dbC4 "t").Pairwise
      (fun a b => a.executionOrder ≤ b.executionOrder) ∧
    (selectAssignments dbC4 "t").Perm
      (dbC4.assignments.filter fun a => a.taskId = "t") :=
  C4_sequential_inorder (fun _ => 1) llmC4 9 "t" "u" [] dbC4 (taskFix "t" "T" "u") []
    (by decide)
    (by simp [selectAssignments, List.mergeSort, dbC4, emptyDB, assignFix])

theorem updateTaskStatus_assignments (db : DB) (tid s : String) :
    (updateTaskStatus db tid s).assignments = db.assignments := rfl

theorem applyStep_assignments (now : Nat) (taskId : String) (llm : Nat → LLMOutcome)
    (db : DB) (k : Nat) (a : AssignmentRow) :
    (applyStep now taskId llm db k a).assignments =
      db.assignments.map fun x =>
        if x.id = a.id then
          { x with
            status := "COMPLETED", startedAt := some now,
            result := some (outcomeResult (llm k)), completedAt := some now }
        else x := by
  simp only [applyStep, insertContribution, completeAssignment, startAssignment,
    List.map_map]
  apply List.map_congr_left
  intro x _
  by_cases h : x.id = a.id <;> simp [Function.comp, h]

theorem applySteps_assignments_shape (now : Nat) (taskId : String)
    (llm : Nat → LLMOutcome) (l : List AssignmentRow) :
    ∀ (k : Nat) (db : DB), ∃ G : AssignmentRow → AssignmentRow,
      (applySteps now taskId llm l k db).assignments = db.assignments.map G ∧
        ∀ x, (G x).id = x.id ∧ (G x).taskId = x.taskId := by
  induction l with
  | nil =>
    intro k db
    exact ⟨id, by simp [applySteps], fun x => ⟨rfl, rfl⟩⟩
  | cons a rest ih =>
    intro k db
    obtain ⟨G, hG, hpres⟩ := ih (k + 1) (applyStep now taskId llm db k a)
    refine ⟨G ∘ fun x =>
      if x.id = a.id then
        { x with
          status := "COMPLETED", startedAt := some now,
          result := some (outcomeResult (llm k)), completedAt := some now }
      else x, ?_, ?_⟩
    · rw [applySteps, hG, applyStep_assignments, List.map_map]
    · intro x
      by_cases h : x.id = a.id <;>
        simp [Function.comp, h, (hpres _).1, (hpres _).2]

theorem applyStep_completed (now : Nat) (taskId : String) (llm : Nat → LLMOutcome)
    (db : DB) (k : Nat) (a : AssignmentRow) :
    ∀ r ∈ (applyStep now taskId llm db k a).assignments, r.id = a.id →
      r.status = "COMPLETED" := by
  intro r hr hid
  rw [applyStep_assignments] at hr
  obtain ⟨x, hx, rfl⟩ := List.mem_map.mp hr
  by_cases h : x.id = a.id
  · simp [h]
  · rw [if_neg h] at hid ⊢
    exact absurd hid h

theorem applySteps_preserve (now : Nat) (taskId : String) (llm : Nat → LLMOutcome)
    (l : List AssignmentRow) :
    ∀ (k : Nat) (db : DB) (r : AssignmentRow),
      r ∈ (applySteps now taskId llm l k db).assignments →
      r.id ∉ l.map (fun x => x.id) → r ∈ db.assignments := by
  induction l with
  | nil => intro k db r hr _; simpa [applySteps] using hr
  | cons a rest ih =>
    intro k db r hr hni
    simp only [List.map_cons, List.mem_cons, not_or] at hni
    have hr' := ih (k + 1) _ r (by simpa [applySteps] using hr) (by
      intro hmem
      exact hni.2 hmem)
    rw [applyStep_assignments] at hr'
    obtain ⟨x, hx, heq⟩ := List.mem_map.mp hr'
    by_cases h : x.id = a.id
    · exfalso
      apply hni.1
      rw [← heq]
      simp [h]
    · rw [if_neg h] at heq
      exact heq ▸ hx

theorem applySteps_completed (now : Nat) (taskId : String) (llm : Nat → LLMOutcome)
    (l : List AssignmentRow) :
    ∀ (k : Nat) (db : DB) (r : AssignmentRow),
      r ∈ (applySteps now taskId llm l k db).assignments →
      r.id ∈ l.map (fun x => x.id) → r.status = "COMPLETED" := by
  induction l with
  | nil => intro k db r _ hmem; simp at hmem
  | cons a rest ih =>
    intro k db r hr hmem
    by_cases hrest : r.id ∈ rest.map fun x => x.id
    · exact ih (k + 1) _ r (by simpa [applySteps] using hr) hrest
    · have hida : r.id = a.id := by
        simp only [List.map_cons, List.mem_cons] at hmem
        tauto
      have hr' : r ∈ (applyStep now taskId llm db k a).assignments :=
        applySteps_preserve now taskId llm rest (k + 1) _ r
          (by simpa [applySteps] using hr) hrest
      exact applyStep_completed now taskId llm db k a r hr' hida

/-- C2 (amended): an uncaught exception (such as a thrown database error) rolls
the whole task back to PENDING, but an agent's failed LLM call is not one:
executeAgentSubtask catches it and returns "Error executing subtask: ..." with
null confidence, the assignment is persisted COMPLETED with that text, and
execution continues — a database-error-free run with a visible task completes
every assignment of the task and the task itself, whatever the LLM outcomes. -/
theorem C2_llm_error_swallowed (jsExp : ℚ → ℚ) (llm : Nat → LLMOutcome) (now : Nat)
    (taskId userId : String) (docs : List String) (db : DB) (task : TaskRow)
    (rest : List TaskRow)
    (hvis : db.tasks.filter (fun t => t.id = taskId ∧ t.userId = userId) =
      task :: rest)
    (hagents : ∀ a ∈ selectAssignments db taskId,
      (db.agents.find? fun g => g.id = a.agentId).isSome = true) :
    (∀ (i : Nat) (aid d : String) (prev : List Contribution) (ds : List String)
        (e : LLMError), llm i = LLMOutcome.err e →
      executeAgentSubtask jsExp llm i aid d prev ds =
        (("Error executing subtask: " ++ e.message, none), i + 1,
          [Event.llmAgentCall aid subtaskModel (agentSystemPrompt d ds prev) prev])) ∧
    (∀ r ∈ (executeCollaborativeTask jsExp llm (fun _ => false) now taskId userId
        docs db).1.assignments, r.taskId = taskId → r.status = "COMPLETED") ∧
    (∀ t ∈ (executeCollaborativeTask jsExp llm (fun _ => false) now taskId userId
        docs db).1.tasks, t.id = taskId → t.status = "COMPLETED") := by
  refine ⟨?_, ?_, ?_⟩
  · intro i aid d prev ds e he
    rw [executeAgentSubtask_eq]
    simp [he, outcomeResult, outcomeConf, outcomeStreamEvents]
  · intro r hr hrt
    rw [executeCollaborativeTask,
      execBody_visible jsExp llm now taskId userId docs db task rest hvis hagents] at hr
    simp only [completeTask_assignments] at hr
    obtain ⟨G, hG, hpres⟩ := applySteps_assignments_shape now taskId llm
      (selectAssignments db taskId) 0 (updateTaskStatus db taskId "IN_PROGRESS")
    have hid : r.id ∈ (selectAssignments db taskId).map fun x => x.id := by
      rw [hG] at hr
      obtain ⟨x, hx, rfl⟩ := List.mem_map.mp hr
      rw [updateTaskStatus_assignments] at hx
      have hxs : x ∈ selectAssignments db taskId := by
        rw [selectAssignments, (List.mergeSort_perm _ _).mem_iff]
        exact List.mem_filter.mpr ⟨hx, by
          rw [(hpres x).2] at hrt
          simpa using hrt⟩
      exact List.mem_map.mpr ⟨x, hxs, ((hpres x).1).symm ▸ rfl⟩
    exact applySteps_completed now taskId llm (selectAssignments db taskId) 0 _ r hr hid
  · intro t ht hid
    rw [executeCollaborativeTask,
      execBody_visible jsExp llm now taskId userId docs db task rest hvis hagents] at ht
    exact completeTask_status _ taskId _ now t ht hid

/-- C2 counterexample: a run in which the first agent's LLM call fails with a
non-model error, yet its assignment is persisted COMPLETED with the error message
as its result, the second agent still runs, and the task completes — contradicting
"each subtask either fully succeeds or the whole task rolls back to PENDING". -/
theorem C2_counterexample :
    ((executeCollaborativeTask (fun _ => 1) llmC2 (fun _ => false) 3 "t" "u" []
        dbC2).1.assignments.map fun a => (a.id, a.status, a.result)) =
      [("a1", "COMPLETED", some ("Error executing subtask: boom")),
       ("a2", "COMPLETED", some ("Beta says".trim))] ∧
    ((executeCollaborativeTask (fun _ => 1) llmC2 (fun _ => false) 3 "t" "u" []
        dbC2).1.tasks.map fun t => t.status) = ["COMPLETED"] := by
  refine ⟨?_, ?_⟩ <;>
    · simp [executeCollaborativeTask, execBody, execLoop, selectAssignments,
        List.mergeSort, updateTaskStatus, completeTask, synthesizeResults,
        synthesisLLMCall, executeAgentSubtask, subtaskLLMCall, subtaskModel,
        isModelError, startAssignment, completeAssignment, insertContribution,
        lookupRole, llmC2, dbC2, taskFix, assignFix, emptyDB,
        computeConfidenceFromLogprobs]
      try decide

/-- C2 witness: the concrete failing call of the counterexample run is returned as
a caught error result by executeAgentSubtask. -/
theorem C2_witness :
    executeAgentSubtask (fun _ => 1) llmC2 0 "a1" "d" [] [] =
      (("Error executing subtask: " ++ "boom", none), 0 + 1,
        [Event.llmAgentCall "a1" subtaskModel (agentSystemPrompt "d" [] []) []]) :=
  (C2_llm_error_swallowed (fun _ => 1) llmC2 3 "t" "u" [] dbC2 (taskFix "t" "T" "u")
    [] (by decide) (by simp [selectAssignments, List.mergeSort, dbC2, emptyDB,
      assignFix])).1 0 "a1" "d" [] [] ⟨none, none, false, "boom", none⟩ (by decide)

/-- C1 (code_bug): the persisted agent_contributions confidence is the literal
0.85, not the token-probability score: in a run whose single response carries one
token of log-probability 0 (so the computed score is 100), the stored row still
says 0.85, and executeAgentSubtask itself returned 100 for that call. -/
theorem C1_confidence_hardcoded :
    ((executeCollaborativeTask (fun _ => 1) llmC1 (fun _ => false) 7 "t" "u" []
        dbC1).1.contributions.map fun c => c.confidence) = [(0.85 : ℚ)] ∧
    (executeAgentSubtask (fun _ => 1) llmC1 0 "a1" "d" [] []).1.2 = some 100 ∧
    (0.85 : ℚ) ≠ 100 := by
  refine ⟨?_, ?_, by norm_num⟩
  · simp [executeCollaborativeTask, execBody, execLoop, selectAssignments,
      List.mergeSort, updateTaskStatus, completeTask, synthesizeResults,
      synthesisLLMCall, executeAgentSubtask, subtaskLLMCall, subtaskModel,
      isModelError, startAssignment, completeAssignment, insertContribution,
      lookupRole, llmC1, dbC1, taskFix, assignFix, emptyDB,
      computeConfidenceFromLogprobs]
  · norm_num [executeAgentSubtask, subtaskLLMCall, subtaskModel, llmC1,
      computeConfidenceFromLogprobs, jsMin, jsMax]
    intro h
    cases h

theorem generateSubtasks_length (parseJson : String → Option (List RawSubtask))
    (llm : Nat → LLMOutcome) (i : Nat) (d : String) (members : List MemberJoin) :
    (generateSubtasks parseJson llm i d members).1.length = members.length := by
  unfold generateSubtasks
  rcases h : decompositionLLMCall llm i with ⟨⟨res, att⟩, i'⟩
  cases res with
  | error e => simp
  | ok r =>
    cases hp : parseJson (r.content.getD "[]") with
    | none => simp [hp]
    | some subtasks => simp [hp]

theorem selectMembersJoined_length (db : DB) (teamId : String) :
    (selectMembersJoined db teamId).length =
      (db.teamMembers.filter fun m => m.teamId = teamId).length := by
  simp [selectMembersJoined, (List.mergeSort_perm _ _).length_eq]

/-- C5: createCollaborativeTask creates exactly one task_assignments row per team
member of the team at creation time: the matched subtask, the per-agent default
when the decomposition omits an agent, or the generic per-member subtask when the
decomposition call or its JSON parse fails — for every LLM outcome and parse
outcome. -/
theorem C5_one_assignment_per_member (parseJson : String → Option (List RawSubtask))
    (llm : Nat → LLMOutcome) (i : Nat) (newTaskId : String) (assignId : Nat → String)
    (now : Nat) (teamId userId : String) (data : CreateData) (db : DB)
    (hfresh : ∀ a ∈ db.assignments, a.taskId ≠ newTaskId) :
    (((createCollaborativeTask parseJson llm i newTaskId assignId now teamId userId
        data db).1).assignments.filter fun a => a.taskId = newTaskId).length =
      (db.teamMembers.filter fun m => m.teamId = teamId).length := by
  simp only [createCollaborativeTask]
  rw [List.filter_append]
  have h1 : db.assignments.filter (fun a => a.taskId = newTaskId) = [] :=
    List.filter_eq_nil_iff.mpr (fun a ha => by simpa using hfresh a ha)
  rw [h1]
  have h2 : ∀ (gs : List RawSubtask),
      ((gs.enum.map fun ks =>
        { id := assignId ks.1, taskId := newTaskId, agentId := ks.2.agentId,
          subtaskDescription := ks.2.description, status := "PENDING",
          result := none, executionOrder := ks.1 + 1, startedAt := none,
          completedAt := none : AssignmentRow }).filter
        fun a => a.taskId = newTaskId).length = gs.length := by
    intro gs
    rw [List.filter_eq_self.mpr]
    · simp [List.enum_length]
    · intro r hr
      obtain ⟨ks, hks, rfl⟩ := List.mem_map.mp hr
      simp
  rw [List.nil_append, h2, generateSubtasks_length, selectMembersJoined_length]

/-- C5 witness: two members, a decomposition that only mentions the first agent —
still exactly two assignment rows. -/
theorem C5_witness :
    (((createCollaborativeTask pjC5 llmTrivial 0 "nt" (fun _ => "x") 4 "T" "u"
        ⟨"t1", "d1", none, none⟩ dbC5).1).assignments.filter
        fun a => a.taskId = "nt").length =
      (dbC5.teamMembers.filter fun m => m.teamId = "T").length :=
  C5_one_assignment_per_member pjC5 llmTrivial 0 "nt" (fun _ => "x") 4 "T" "u"
    ⟨"t1", "d1", none, none⟩ dbC5 (by simp [dbC5, emptyDB])

/-- C6 (amended): createTaskVersion always points the new version at the family
root (`parent_task_id || originalTaskId`), and its version_number is the root's
version_number + 1 (1 when the root row is missing) — so the first derived version
gets number 2 and every later derived version gets number 2 again; version numbers
within a family are not strictly increasing with creation order. -/
theorem C6_version_root_pointer (parseJson : String → Option (List RawSubtask))
    (llm : Nat → LLMOutcome) (i : Nat) (newTaskId : String) (assignId : Nat → String)
    (now : Nat) (originalTaskId userId : String) (updates : VersionUpdates) (db : DB)
    (originalTask : TaskRow) (out : DB × TaskRow × Nat)
    (hok : getTaskByIdRow db originalTaskId userId = Except.ok originalTask)
    (hres : createTaskVersion parseJson llm i newTaskId assignId now originalTaskId
      userId updates db = Except.ok out) :
    out.2.1.parentTaskId = some (originalTask.parentTaskId.getD originalTaskId) ∧
    out.2.1.versionNumber =
      ((db.tasks.find? fun t =>
        t.id = originalTask.parentTaskId.getD originalTaskId).map
        fun p => p.versionNumber + 1).getD 1 := by
  unfold createTaskVersion at hres
  rw [hok] at hres
  have hout : out = createCollaborativeTask parseJson llm i newTaskId assignId now
      originalTask.teamId userId
      { title := updates.title.getD originalTask.title,
        description := updates.description.getD originalTask.description,
        priority := some (updates.priority.getD originalTask.priority),
        parentTaskId := some (originalTask.parentTaskId.getD originalTaskId) } db :=
    (Except.ok.inj hres).symm
  subst hout
  constructor
  · simp [createCollaborativeTask]
  · simp only [createCollaborativeTask]
    cases hf : db.tasks.find? fun t =>
      t.id = originalTask.parentTaskId.getD originalTaskId <;> simp [hf]

/-- C6 counterexample: with root `r` at version 1 and an existing version `c` at
version 2, creating a further version from `c` yields version_number 2 again —
not strictly greater than every existing version in the family. -/
theorem C6_counterexample :
    (createTaskVersion (fun _ => none) llmErr 0 "v3" (fun _ => "x") 5 "c" "u"
      ⟨none, none, none⟩ dbC6).toOption.map (fun r => r.2.1.versionNumber) =
      some 2 ∧
    ((dbC6.tasks.find? fun t => t.id = "c").map fun t =>
      (t.parentTaskId, t.versionNumber)) = some (some "r", 2) := by
  constructor
  · simp [createTaskVersion, getTaskByIdRow, createCollaborativeTask,
      generateSubtasks, decompositionLLMCall, llmErr, isModelError,
      selectMembersJoined, List.mergeSort, dbC6, taskFix, emptyDB, Except.toOption]
  · decide

theorem except_ok_getD {ε α : Type} (e : Except ε α) (d : α)
    (h : e.toOption.isSome = true) : e = Except.ok (e.toOption.getD d) := by
  cases e <;> simp_all [Except.toOption]

/-- C6 witness: the concrete version creation of the counterexample database. -/
theorem C6_witness :
    outC6.2.1.parentTaskId = some (taskC6c.parentTaskId.getD "c") ∧
    outC6.2.1.versionNumber =
      ((dbC6.tasks.find? fun t => t.id = taskC6c.parentTaskId.getD "c").map
        fun p => p.versionNumber + 1).getD 1 :=
  C6_version_root_pointer (fun _ => none) llmErr 0 "v3" (fun _ => "x") 5 "c" "u"
    ⟨none, none, none⟩ dbC6 taskC6c outC6
    (by simp [getTaskByIdRow, dbC6, taskC6c, taskFix, emptyDB, List.find?]) (by
      unfold outC6
      exact except_ok_getD _ _ (by
        simp [createTaskVersion, getTaskByIdRow, createCollaborativeTask,
          generateSubtasks, decompositionLLMCall, llmErr, isModelError,
          selectMembersJoined, List.mergeSort, dbC6, taskC6c, taskFix, emptyDB,
          Except.toOption]))

theorem updateTaskFeedback_row (db : DB) (tid : String) (fb : Int) :
    ∀ t ∈ (updateTaskFeedback db tid fb).tasks, t.id = tid → t.feedback = some fb := by
  intro t ht hid
  simp only [updateTaskFeedback] at ht
  obtain ⟨x, hx, rfl⟩ := List.mem_map.mp ht
  by_cases h : x.id = tid
  · simp [h]
  · rw [if_neg h] at hid ⊢
    exact absurd hid h

theorem recordTaskFeedback_ok (db : DB) (taskId userId : String) (fb : Int)
    (db' : DB)
    (h : recordTaskFeedback db taskId userId fb = Except.ok db') :
    db' = updateTaskFeedback db taskId fb := by
  unfold recordTaskFeedback at h
  dsimp only [] at h
  repeat' split at h
  all_goals first
    | exact (Except.ok.inj h).symm
    | cases h

/-- C7 (amended): recordTaskFeedback validates only access, persisting whatever
number it is given (see the counterexample for an accepted 5); the {-1, 0, 1}
invariant holds for the values the frontend's handleFeedback actually submits,
which are only -1 and 1, and a successful call stores exactly the submitted
value. -/
theorem C7_feedback_values (db : DB) (taskId userId : String) (current value v : Int)
    (db' : DB) (hval : value = -1 ∨ value = 1)
    (hsend : handleFeedback current value = some v)
    (hok : recordTaskFeedback db taskId userId v = Except.ok db') :
    (v = -1 ∨ v = 1) ∧ ∀ t ∈ db'.tasks, t.id = taskId → t.feedback = some v := by
  have hv : v = value := by
    unfold handleFeedback at hsend
    by_cases h : current = value
    · simp [h] at hsend
    · have hnz : value ≠ 0 := by rcases hval with h1 | h1 <;> omega
      simp [h, hnz] at hsend
      omega
  refine ⟨hv ▸ hval, ?_⟩
  rw [recordTaskFeedback_ok db taskId userId v db' hok]
  exact updateTaskFeedback_row db taskId v

/-- C7 counterexample: a successful recordTaskFeedback call with the value 5 —
outside {-1, 0, 1} — is accepted and persisted, so out-of-range numbers are not
rejected. -/
theorem C7_counterexample :
    recordTaskFeedback dbC7 "t" "u" 5 = Except.ok (updateTaskFeedback dbC7 "t" 5) ∧
    ((updateTaskFeedback dbC7 "t" 5).tasks.map fun t => t.feedback) = [some 5] := by
  constructor
  · simp [recordTaskFeedback, updateTaskFeedback, dbC7, taskFix, emptyDB]
  · decide

/-- C7 witness: a feedback of 1 sent by the frontend toggle is persisted as 1. -/
theorem C7_witness : taskC7fb.feedback = some 1 :=
  (C7_feedback_values dbC7 "t" "u" 0 1 1 (updateTaskFeedback dbC7 "t" 1) (by decide)
    (by decide) (by
      simp [recordTaskFeedback, updateTaskFeedback, dbC7, taskFix, emptyDB])).2
    taskC7fb (by decide) (by decide)

/-- C8: deleteTeam archives rather than hard-deletes: the owner's team row remains
with status ARCHIVED and every other field unchanged, rows not matching the id and
owner are untouched, and the team no longer appears in getTeamsByUser, which lists
only ACTIVE teams. -/
theorem C8_deleteTeam_archives (db : DB) (teamId userId : String) :
    (∀ t ∈ db.teams, t.id = teamId → t.userId = userId →
      { t with status := "ARCHIVED" } ∈ (deleteTeam db teamId userId).teams) ∧
    (∀ t ∈ db.teams, ¬(t.id = teamId ∧ t.userId = userId) →
      t ∈ (deleteTeam db teamId userId).teams) ∧
    (∀ t ∈ getTeamsByUser (deleteTeam db teamId userId) userId, t.id ≠ teamId) := by
  refine ⟨?_, ?_, ?_⟩
  · intro t ht h1 h2
    unfold deleteTeam
    refine List.mem_map.mpr ⟨t, ht, ?_⟩
    rw [if_pos ⟨h1, h2⟩]
  · intro t ht hno
    unfold deleteTeam
    exact List.mem_map.mpr ⟨t, ht, by rw [if_neg hno]⟩
  · intro t ht
    unfold getTeamsByUser at ht
    rw [(List.mergeSort_perm _ _).mem_iff] at ht
    obtain ⟨htm, hprop⟩ := List.mem_filter.mp ht
    simp only [decide_eq_true_eq] at hprop
    unfold deleteTeam at htm
    obtain ⟨x, hx, heq⟩ := List.mem_map.mp htm
    by_cases h : x.id = teamId ∧ x.userId = userId
    · exfalso
      rw [if_pos h] at heq
      have hstat : t.status = "ARCHIVED" := by rw [← heq]
      rw [hstat] at hprop
      exact absurd hprop.2 (by decide)
    · rw [if_neg h] at heq
      subst heq
      intro hid
      exact h ⟨hid, hprop.1⟩

/-- C8 witness: the concrete team is archived in place. -/
theorem C8_witness :
    ({ teamC8 with status := "ARCHIVED" } : TeamRow) ∈
      (deleteTeam dbC8 "T" "u").teams :=
  (C8_deleteTeam_archives dbC8 "T" "u").1 teamC8 (by decide) (by decide) (by decide)

end Collab
